import Mathlib

/-!
Verification development for `fanbot.py`, a Telegram bot that monitors and
controls Dell iDRAC fan speeds via `ipmitool`.

The embedding below is a shallow model of `src/fanbot.py`:
* hardware command emission is modelled as a trace of raw-byte argument lists
  (the arguments the code passes to `IPMIClient.raw`);
* the outcome of a blocking `ipmitool` invocation (success, or an `IPMIError`
  raised for timeout / non-zero exit / unreachable host) is an explicit
  boolean parameter of each operation that performs one;
* `time.monotonic()` values are passed explicitly as rationals;
* sensor values (Python floats parsed from decimal literals) are modelled as
  exact rationals;
* Python dicts are modelled as insertion-ordered association lists with
  overwrite-on-repeated-key semantics (`insertReading`);
* chat-transport concerns (message text, subscriber bookkeeping, delivery)
  are outside the model; the events a handler emits are recorded as booleans.
-/

namespace Fanbot

/-- A single `ipmitool raw ...` invocation, as the list of hex-byte argument
strings the code passes to `IPMIClient.raw`. -/
abbrev RawCmd := List String

/-- Characters Python's `str.strip()` / `\s` treat as whitespace (ASCII). -/
def pySpaceChar (c : Char) : Bool :=
  c = ' ' || c = '\t' || c = '\n' || c = '\r' || c = '\x0b' || c = '\x0c'

/-- Python `str.strip()` on a character list. -/
def pyStripChars (s : List Char) : List Char :=
  ((s.dropWhile pySpaceChar).reverse.dropWhile pySpaceChar).reverse

/-- Python `str.strip()`. -/
def pyStrip (s : String) : String :=
  String.mk (pyStripChars s.data)

/-- Value of a decimal-digit string (`natOfDigits ['3','0'] = 30`). -/
def natOfDigits (l : List Char) : ℕ :=
  l.foldl (fun a c => a * 10 + (c.toNat - 48)) 0

/-- Upper-case hexadecimal digit, as produced by the 02X format. -/
def hexDigitChar (n : ℕ) : Char :=
  if n < 10 then Char.ofNat (48 + n) else Char.ofNat (55 + n)

/-- Python hex formatting of a byte value with the 0x prefix and the 02X
format (the clamped percent is always in 0..100, so two upper-case hex
digits suffice as in the source format string). -/
def pyHex02X (n : ℕ) : String :=
  String.mk ['0', 'x', hexDigitChar (n / 16), hexDigitChar (n % 16)]

/-- Model of `IPMIClient.enable_static_fan_control`: `raw 0x30 0x30 0x01 0x00`. -/
def enable_static_fan_control : RawCmd :=
  ["0x30", "0x30", "0x01", "0x00"]

/-- Model of `IPMIClient.disable_static_fan_control`: `raw 0x30 0x30 0x01 0x01`. -/
def disable_static_fan_control : RawCmd :=
  ["0x30", "0x30", "0x01", "0x01"]

/-- The clamp `max(0, min(100, percent))` in `IPMIClient.set_manual_fan_speed`. -/
def clampPercent (p : ℤ) : ℤ :=
  max 0 (min 100 p)

/-- Model of `IPMIClient.set_manual_fan_speed`: clamps, then issues
`raw 0x30 0x30 0x02 0xff <hex>`. -/
def set_manual_fan_speed (p : ℤ) : RawCmd :=
  ["0x30", "0x30", "0x02", "0xff", pyHex02X (clampPercent p).toNat]

/-- Model of `IPMIClient.apply_manual_speed`: enable static control, then set speed.
The trace lists the raw commands issued, in order. -/
def apply_manual_speed (p : ℤ) : List RawCmd :=
  [enable_static_fan_control, set_manual_fan_speed p]

/-! ### Sensor-dump parsing (`IPMIClient.get_fan_readings`) -/

/-- A character of the regex class `[\d.]`. -/
def isValueChar (c : Char) : Bool :=
  c.isDigit || c = '.'

/-- Does the remaining input start with the regex alternative `(RPM|%)`,
case-insensitively (the pattern is compiled with `re.IGNORECASE`)? -/
def rpmOrPercentPrefix (cs : List Char) : Bool :=
  match cs with
  | '%' :: _ => true
  | c1 :: c2 :: c3 :: _ => c1.toLower = 'r' && c2.toLower = 'p' && c3.toLower = 'm'
  | _ => false

/-- Model of `FAN_LINE_RE.match` on a (pre-stripped) line:
`^(?P<name>[^|]+)\|\s+(?P<value>[\d.]+)\s*(?P<unit>RPM|%)` with IGNORECASE.
Returns the `name` and `value` groups.  Greedy matching of each class is
faithful here because consecutive character classes are disjoint, so the
regex engine never needs to backtrack into them. -/
def fanLineMatch (s : List Char) : Option (List Char × List Char) :=
  let name := s.takeWhile (fun c => c != '|')
  let rest := s.dropWhile (fun c => c != '|')
  match rest with
  | '|' :: r1 =>
    if name.isEmpty then none
    else
      let sp := r1.takeWhile pySpaceChar
      let r2 := r1.dropWhile pySpaceChar
      if sp.isEmpty then none
      else
        let num := r2.takeWhile isValueChar
        let r3 := r2.dropWhile isValueChar
        if num.isEmpty then none
        else if rpmOrPercentPrefix (r3.dropWhile pySpaceChar) then some (name, num)
        else none
  | _ => none

/-- Exact value of a Python float literal made of digits and one dot. -/
def pyFloatValue (num : List Char) : ℚ :=
  let ip := num.takeWhile (fun c => c != '.')
  let fp := (num.dropWhile (fun c => c != '.')).drop 1
  (natOfDigits ip : ℚ) + (natOfDigits fp : ℚ) / (10 ^ fp.length : ℚ)

/-- Python `float(value_str)` for a string drawn from `[\d.]+`: it succeeds
iff the string has at most one dot and at least one digit (`"1.2.3"` and
`"."` raise `ValueError`), and the value is exact. -/
def pyFloat? (num : List Char) : Option ℚ :=
  if num.count '.' ≤ 1 ∧ num.any Char.isDigit then some (pyFloatValue num) else none

/-- One iteration of the parsing loop in `get_fan_readings`: strip the line,
match it against `FAN_LINE_RE`, convert the value with `float`, strip the
name.  `none` means the row is skipped (`continue`). -/
def parseRow (line : String) : Option (String × ℚ) :=
  match fanLineMatch (pyStrip line).data with
  | none => none
  | some nv =>
    match pyFloat? nv.2 with
    | none => none
    | some v => some (String.mk (pyStripChars nv.1), v)

/-- Python dict assignment `readings[name] = value` on an insertion-ordered
association list (keys are unique, as in a dict): overwrite in place if the
key exists, else append. -/
def insertReading : List (String × ℚ) → String → ℚ → List (String × ℚ)
  | [], k, v => [(k, v)]
  | p :: rest, k, v => if p.1 = k then (k, v) :: rest else p :: insertReading rest k v

/-- The accumulation loop of `get_fan_readings` over the output lines. -/
def readingsFold (acc : List (String × ℚ)) : List String → List (String × ℚ)
  | [] => acc
  | line :: rest =>
    match parseRow line with
    | none => readingsFold acc rest
    | some nv => readingsFold (insertReading acc nv.1 nv.2) rest

/-- The dict built by inserting a list of parsed rows in order. -/
def buildReadings (rows : List (String × ℚ)) : List (String × ℚ) :=
  rows.foldl (fun acc r => insertReading acc r.1 r.2) []

/-- Model of `IPMIClient.get_fan_readings`, given the lines of the `sdr list full`
output (line-splitting of the raw stdout is abstracted): parse each line,
skipping non-matching ones; raise `IPMIError` iff nothing parsed. -/
def get_fan_readings (lines : List String) : Except String (List (String × ℚ)) :=
  let readings := readingsFold [] lines
  if readings = [] then Except.error "Unable to parse fan readings from ipmitool output"
  else Except.ok readings

/-! ### Bot state and handlers (`FanBot`) -/

/-- The mutable `FanBot` fields the reconciliation logic reads and writes.
(`subscribers` and the Telegram application object are chat-transport glue,
outside the model.) -/
structure BotState where
  manual_speed : Option ℤ
  last_speed_push : Option ℚ
  failed_reapply : Bool
  last_readings : List (String × ℚ)
deriving DecidableEq, Repr

/-- Model of `FanBot.__init__`: no state is loaded from disk; every field starts
empty/cleared. -/
def initBotState : BotState :=
  { manual_speed := none, last_speed_push := none, failed_reapply := false,
    last_readings := [] }

/-- A process restart constructs a fresh `FanBot`; nothing of the prior
process state is read back (`__init__` takes only the config). -/
def restartState (_prior : BotState) : BotState :=
  initBotState

/-- Events a single handler invocation emits toward the chat transport. -/
structure TickEvents where
  warned : Bool
  recovered : Bool
  fan_change : Option (List (String × ℚ))
deriving DecidableEq, Repr

/-- Outcome reported to the caller of a directive handler. -/
inductive DirectiveResult where
  | rejected_range
  | apply_failed
  | ok
deriving DecidableEq, Repr

/-- Model of `FanBot.cmd_set_speed` after argument parsing, given the parsed integer
percent: reject out-of-range input before any hardware call; otherwise run
`apply_manual_speed` (whose success is `applyOk`); only on success record the
new manual speed.  The middle component is the trace of raw commands issued
to the command channel. -/
def cmd_set_speed (s : BotState) (percent : ℤ) (now : ℚ) (applyOk : Bool) :
    BotState × List RawCmd × DirectiveResult :=
  if 0 ≤ percent ∧ percent ≤ 100 then
    if applyOk then
      ({ s with manual_speed := some percent, last_speed_push := some now,
                failed_reapply := false },
       apply_manual_speed percent, DirectiveResult.ok)
    else (s, apply_manual_speed percent, DirectiveResult.apply_failed)
  else (s, [], DirectiveResult.rejected_range)

/-- Model of `FanBot.cmd_auto`: issue `disable_static_fan_control`; only on success
clear `manual_speed` and `last_speed_push`. -/
def cmd_auto (s : BotState) (disableOk : Bool) :
    BotState × List RawCmd × DirectiveResult :=
  if disableOk then
    ({ s with manual_speed := none, last_speed_push := none },
     [disable_static_fan_control], DirectiveResult.ok)
  else (s, [disable_static_fan_control], DirectiveResult.apply_failed)

/-- Model of `FanBot._apply_default_speed` (scheduled with `run_once(when=0)` at
startup): if a default percent is configured, immediately run
`apply_manual_speed`; on failure log and leave state unchanged. -/
def apply_default_speed (default_manual_percent : Option ℤ) (s : BotState)
    (now : ℚ) (applyOk : Bool) : BotState × List RawCmd :=
  match default_manual_percent with
  | none => (s, [])
  | some p =>
    if applyOk then
      ({ s with manual_speed := some p, last_speed_push := some now,
                failed_reapply := false },
       apply_manual_speed p)
    else (s, apply_manual_speed p)

/-- The Python truthiness gate
`if self.last_speed_push and now - self.last_speed_push < reapply_interval`:
blocks the re-assertion when a last push exists, is non-zero (float
truthiness), and is recent. -/
def lspBlocks (lsp : Option ℚ) (now interval : ℚ) : Bool :=
  match lsp with
  | some t => decide (t ≠ 0) && decide (now - t < interval)
  | none => false

/-- Model of `FanBot._reapply_manual_speed_if_needed`: skip when no manual policy or
the last push is recent; otherwise re-run `apply_manual_speed` (success is
`applyOk`).  On failure, warn only on the first failure (`failed_reapply`
not yet set) and set the flag; on success, stamp the push time, broadcast a
"recovered" notice iff the flag was set, and clear it. -/
def reapply_manual_speed_if_needed (interval : ℚ) (s : BotState) (now : ℚ)
    (applyOk : Bool) : BotState × TickEvents :=
  match s.manual_speed with
  | none => (s, ⟨false, false, none⟩)
  | some _ =>
    if lspBlocks s.last_speed_push now interval then (s, ⟨false, false, none⟩)
    else if applyOk then
      ({ s with last_speed_push := some now, failed_reapply := false },
       ⟨false, s.failed_reapply, none⟩)
    else
      ({ s with failed_reapply := true }, ⟨!s.failed_reapply, false, none⟩)

/-- Run `reapply_manual_speed_if_needed` over a list of ticks, each a pair of
the tick's monotonic time and the success of that tick's hardware apply,
collecting the events of every tick. -/
def run_reapply (interval : ℚ) : BotState → List (ℚ × Bool) → BotState × List TickEvents
  | s, [] => (s, [])
  | s, t :: rest =>
    let r := reapply_manual_speed_if_needed interval s t.1 t.2
    let out := run_reapply interval r.1 rest
    (out.1, r.2 :: out.2)

/-- Python `dict.get(name)` on the association-list model: the value of the
first entry with the given key, if any. -/
def lookupReading (m : List (String × ℚ)) (k : String) : Option ℚ :=
  match m with
  | [] => none
  | p :: rest => if p.1 = k then some p.2 else lookupReading rest k

/-- Loop body of `FanBot._diff_readings`, with explicit accumulator. -/
def diffAux (old : List (String × ℚ)) (threshold : ℚ) :
    List (String × ℚ) → List (String × ℚ) → List (String × ℚ)
  | changed, [] => changed
  | changed, nv :: rest =>
    match lookupReading old nv.1 with
    | none => diffAux old threshold (insertReading changed nv.1 nv.2) rest
    | some previous =>
      if threshold ≤ |nv.2 - previous| then
        diffAux old threshold (insertReading changed nv.1 nv.2) rest
      else diffAux old threshold changed rest

/-- Model of `FanBot._diff_readings(old, new, threshold)`: iterate over `new`; a name
absent from `old` is always recorded; a name present in both is recorded iff
`abs(value - previous) >= threshold`. -/
def diff_readings (old new : List (String × ℚ)) (threshold : ℚ) :
    List (String × ℚ) :=
  diffAux old threshold [] new

/-- Model of `FanBot.monitor_fans`: first run the re-assertion step, then poll the
fan readings (`poll = none` models an `IPMIError` from the poll, which is
logged and ends the tick).  An empty `last_readings` cache (only ever the
initial state) is filled without diffing; otherwise the diff against the
previous snapshot is broadcast when non-empty. -/
def monitor_fans (interval threshold : ℚ) (s : BotState) (now : ℚ)
    (applyOk : Bool) (poll : Option (List (String × ℚ))) :
    BotState × TickEvents :=
  let r := reapply_manual_speed_if_needed interval s now applyOk
  match poll with
  | none => r
  | some readings =>
    if r.1.last_readings = [] then
      ({ r.1 with last_readings := readings }, r.2)
    else
      let changed := diff_readings r.1.last_readings readings threshold
      ({ r.1 with last_readings := readings },
       { r.2 with fan_change := if changed = [] then none else some changed })

/-! ## Helper lemmas -/

theorem reapply_fail_step (interval : ℚ) (p : ℤ) (t0 now : ℚ) (b : Bool)
    (rs : List (String × ℚ)) (h : interval ≤ now - t0) :
    reapply_manual_speed_if_needed interval ⟨some p, some t0, b, rs⟩ now false =
      (⟨some p, some t0, true, rs⟩, ⟨!b, false, none⟩) := by
  have hlt : ¬ (now - t0 < interval) := not_lt.mpr h
  simp [reapply_manual_speed_if_needed, lspBlocks, hlt]

theorem reapply_success_step (interval : ℚ) (p : ℤ) (t0 now : ℚ) (b : Bool)
    (rs : List (String × ℚ)) (h : interval ≤ now - t0) :
    reapply_manual_speed_if_needed interval ⟨some p, some t0, b, rs⟩ now true =
      (⟨some p, some now, false, rs⟩, ⟨false, b, none⟩) := by
  have hlt : ¬ (now - t0 < interval) := not_lt.mpr h
  simp [reapply_manual_speed_if_needed, lspBlocks, hlt]

theorem run_reapply_append (interval : ℚ) (s : BotState)
    (l1 l2 : List (ℚ × Bool)) :
    run_reapply interval s (l1 ++ l2) =
      ((run_reapply interval (run_reapply interval s l1).1 l2).1,
       (run_reapply interval s l1).2 ++
         (run_reapply interval (run_reapply interval s l1).1 l2).2) := by
  induction l1 generalizing s with
  | nil => simp [run_reapply]
  | cons t rest ih => simp [run_reapply, ih]

theorem run_reapply_fail_all (interval : ℚ) (p : ℤ) (t0 : ℚ)
    (rs : List (String × ℚ)) (ts : List ℚ)
    (hts : ∀ t ∈ ts, interval ≤ t - t0) :
    run_reapply interval ⟨some p, some t0, true, rs⟩
        (ts.map (fun t => (t, false))) =
      (⟨some p, some t0, true, rs⟩,
       ts.map (fun _ => (⟨false, false, none⟩ : TickEvents))) := by
  induction ts with
  | nil => simp [run_reapply]
  | cons t rest ih =>
    have h1 : interval ≤ t - t0 := hts t (by simp)
    have h2 : ∀ x ∈ rest, interval ≤ x - t0 := fun x hx => hts x (by simp [hx])
    simp [run_reapply, reapply_fail_step interval p t0 t true rs h1, ih h2]

theorem reapply_state_fields (interval : ℚ) (s : BotState) (now : ℚ)
    (ok : Bool) :
    (reapply_manual_speed_if_needed interval s now ok).1.last_readings
        = s.last_readings ∧
    (reapply_manual_speed_if_needed interval s now ok).2.fan_change = none := by
  rcases s with ⟨ms, lsp, fr, lr⟩
  cases ms <;> cases ok <;> simp only [reapply_manual_speed_if_needed] <;>
    (try split) <;> simp

theorem lookupReading_eq_none_iff (m : List (String × ℚ)) (k : String) :
    lookupReading m k = none ↔ k ∉ m.map Prod.fst := by
  induction m with
  | nil => simp [lookupReading]
  | cons p rest ih =>
    by_cases hp : p.1 = k
    · simp [lookupReading, hp]
    · simp [lookupReading, hp, ih, Ne.symm hp]

/-- Dict-assignment/lookup law: after `m[k] = v`, looking up `k` yields `v`
and every other key is unchanged. -/
theorem lookupReading_insertReading (m : List (String × ℚ)) (k : String)
    (v : ℚ) (k' : String) :
    lookupReading (insertReading m k v) k' =
      if k' = k then some v else lookupReading m k' := by
  induction m with
  | nil =>
    by_cases hk : k' = k
    · simp [insertReading, lookupReading, hk]
    · simp [insertReading, lookupReading, hk, Ne.symm hk]
  | cons p rest ih =>
    by_cases hp : p.1 = k
    · by_cases hk : k' = k
      · subst hk; simp [insertReading, lookupReading, hp]
      · have hpk : ¬ p.1 = k' := fun hc => hk (hp ▸ hc).symm
        simp [insertReading, lookupReading, hp, hk, Ne.symm hk, hpk]
    · by_cases hpk : p.1 = k'
      · have hk : ¬ k' = k := fun hc => hp (hpk.trans hc)
        simp [insertReading, lookupReading, hp, hpk, hk]
      · simp [insertReading, lookupReading, hp, hpk, ih]

theorem diffAux_lookup (old : List (String × ℚ)) (threshold : ℚ)
    (name : String) :
    ∀ (l changed : List (String × ℚ)), (l.map Prod.fst).Nodup →
    lookupReading (diffAux old threshold changed l) name =
      match lookupReading l name with
      | none => lookupReading changed name
      | some v =>
        match lookupReading old name with
        | none => some v
        | some previous =>
          if threshold ≤ |v - previous| then some v
          else lookupReading changed name := by
  intro l
  induction l with
  | nil => intro changed _; rfl
  | cons nv rest ih =>
    intro changed hnd
    rw [List.map_cons, List.nodup_cons] at hnd
    obtain ⟨hnotin, hnd'⟩ := hnd
    by_cases hname : nv.1 = name
    · subst hname
      have hrest : lookupReading rest nv.1 = none :=
        (lookupReading_eq_none_iff rest nv.1).mpr hnotin
      have hl : lookupReading (nv :: rest) nv.1 = some nv.2 := by
        simp [lookupReading]
      cases hold : lookupReading old nv.1 with
      | none =>
        simp only [diffAux, hold, hl]
        rw [ih _ hnd', hrest]
        simp [lookupReading_insertReading]
      | some previous =>
        simp only [diffAux, hold, hl]
        by_cases hth : threshold ≤ |nv.2 - previous|
        · simp only [if_pos hth]
          rw [ih _ hnd', hrest]
          simp [lookupReading_insertReading]
        · simp only [if_neg hth]
          rw [ih _ hnd', hrest]
    · have hl : lookupReading (nv :: rest) name = lookupReading rest name := by
        simp [lookupReading, hname]
      have hins : lookupReading (insertReading changed nv.1 nv.2) name
          = lookupReading changed name := by
        rw [lookupReading_insertReading, if_neg (fun hc => hname hc.symm)]
      cases hold : lookupReading old nv.1 with
      | none =>
        simp only [diffAux, hold, hl]
        rw [ih _ hnd', hins]
      | some previous =>
        simp only [diffAux, hold, hl]
        by_cases hth : threshold ≤ |nv.2 - previous|
        · simp only [if_pos hth]
          rw [ih _ hnd', hins]
        · simp only [if_neg hth]
          rw [ih _ hnd']

theorem readingsFold_eq_filterMap (lines : List String) :
    ∀ acc, readingsFold acc lines =
      (lines.filterMap parseRow).foldl
        (fun acc r => insertReading acc r.1 r.2) acc := by
  induction lines with
  | nil => intro acc; rfl
  | cons l rest ih =>
    intro acc
    cases h : parseRow l <;> simp [readingsFold, h, ih]

theorem insertReading_ne_nil (m : List (String × ℚ)) (k : String) (v : ℚ) :
    insertReading m k v ≠ [] := by
  cases m with
  | nil => simp [insertReading]
  | cons p rest => by_cases hp : p.1 = k <;> simp [insertReading, hp]

theorem foldl_insertReading_ne_nil (rows : List (String × ℚ)) :
    ∀ acc : List (String × ℚ), acc ≠ [] ∨ rows ≠ [] →
    rows.foldl (fun acc r => insertReading acc r.1 r.2) acc ≠ [] := by
  induction rows with
  | nil =>
    intro acc h
    simpa using h.resolve_right (by simp)
  | cons r rest ih =>
    intro acc _
    simp only [List.foldl_cons]
    exact ih _ (Or.inl (insertReading_ne_nil _ _ _))

/-! ## Claim theorems -/

/-- C5: for every integer percent outside `[0,100]`, `cmd_set_speed` rejects
the directive before any command-channel call is made (its command trace is
empty), and the low-level duty-cycle encoder clamps its argument to
`[0,100]` before encoding, so no hardware command receives an out-of-range
duty-cycle byte. -/
theorem set_speed_range_safety (s : BotState) (percent : ℤ) (now : ℚ)
    (applyOk : Bool) :
    (¬ (0 ≤ percent ∧ percent ≤ 100) →
      (cmd_set_speed s percent now applyOk).2.1 = []) ∧
    0 ≤ clampPercent percent ∧ clampPercent percent ≤ 100 := by
  refine ⟨fun h => by simp [cmd_set_speed, h], ?_, ?_⟩ <;> simp [clampPercent]

/-- Witness for C5 at percent 150: no command is issued and the clamp stays
in range. -/
theorem set_speed_range_safety_witness :
    (cmd_set_speed initBotState 150 0 true).2.1 = [] ∧
    0 ≤ clampPercent 150 ∧ clampPercent 150 ≤ 100 :=
  ⟨(set_speed_range_safety initBotState 150 0 true).1 (by decide),
   (set_speed_range_safety initBotState 150 0 true).2⟩

/-- C6 counterexample: `apply_manual_speed 50` issues the enable+set sequence
exactly once — there is no configurable retry count with default 2, no
re-issued sequence, and no settle delay; in particular the enable command is
not issued twice. -/
theorem apply_manual_speed_no_retry_cex :
    apply_manual_speed 50 = [enable_static_fan_control, set_manual_fan_speed 50] ∧
    (apply_manual_speed 50).count enable_static_fan_control = 1 ∧
    ¬ (apply_manual_speed 50).count enable_static_fan_control = 2 := by
  refine ⟨rfl, by decide, by decide⟩

/-- C6 amended: `apply_manual_speed P` (as invoked by an in-range
`cmd_set_speed`) issues `enable_static_fan_control` followed by
`set_manual_fan_speed P`, in that order, each exactly once; there is no
retry loop. -/
theorem apply_manual_speed_sequence (s : BotState) (percent : ℤ) (now : ℚ)
    (applyOk : Bool) (h : 0 ≤ percent ∧ percent ≤ 100) :
    (cmd_set_speed s percent now applyOk).2.1 =
      [enable_static_fan_control, set_manual_fan_speed percent] := by
  cases applyOk <;> simp [cmd_set_speed, h, apply_manual_speed]

/-- Witness for the amended C6 at percent 50. -/
theorem apply_manual_speed_sequence_witness :
    (cmd_set_speed initBotState 50 0 true).2.1 =
      [enable_static_fan_control, set_manual_fan_speed 50] :=
  apply_manual_speed_sequence initBotState 50 0 true (by decide)

/-- C10: `cmd_auto` is atomic with respect to failure — when the disable
command raises, the whole state is unchanged (in particular `manual_speed`
and `last_speed_push` keep their prior values); on success both are cleared
to `none` and the other fields are untouched. -/
theorem cmd_auto_atomic (s : BotState) :
    (cmd_auto s false).1 = s ∧
    (cmd_auto s true).1.manual_speed = none ∧
    (cmd_auto s true).1.last_speed_push = none ∧
    (cmd_auto s true).1.failed_reapply = s.failed_reapply ∧
    (cmd_auto s true).1.last_readings = s.last_readings := by
  simp [cmd_auto]

/-- C1 counterexample: with prior policy `manual@30`, an `IPMIError` from the
apply step of `cmd_set_speed 50` leaves the recorded policy at `manual@30`,
not the requested `manual@50`. -/
theorem set_speed_failure_policy_cex :
    (cmd_set_speed ⟨some 30, some 5, false, []⟩ 50 10 false).1.manual_speed
        = some 30 ∧
    (cmd_set_speed ⟨some 30, some 5, false, []⟩ 50 10 false).1.manual_speed
        ≠ some 50 := by
  refine ⟨by decide, by decide⟩

/-- C1 amended: when the hardware apply step of an in-range `cmd_set_speed`
fails, the stored policy is unchanged (it keeps the previous policy, not the
newly requested one); only a successful apply records `manual@P`. -/
theorem set_speed_error_preserves_policy (s : BotState) (percent : ℤ) (now : ℚ)
    (h : 0 ≤ percent ∧ percent ≤ 100) :
    (cmd_set_speed s percent now false).1 = s ∧
    (cmd_set_speed s percent now true).1.manual_speed = some percent := by
  simp [cmd_set_speed, h]

/-- Witness for the amended C1: prior policy `manual@30`, request 50. -/
theorem set_speed_error_preserves_policy_witness :
    (cmd_set_speed ⟨some 30, some 5, false, []⟩ 50 10 false).1
        = ⟨some 30, some 5, false, []⟩ ∧
    (cmd_set_speed ⟨some 30, some 5, false, []⟩ 50 10 true).1.manual_speed
        = some 50 :=
  set_speed_error_preserves_policy ⟨some 30, some 5, false, []⟩ 50 10 (by decide)

/-- C2 counterexample: at startup (monotonic time 0), with a configured
default percent of 50 and the controller unreachable (every hardware command
fails), the default-speed job still issues control commands — there is no
readiness gate suppressing them. -/
theorem default_speed_unreachable_cex :
    (apply_default_speed (some 50) initBotState 0 false).2 ≠ [] := by decide

/-- C2 amended: the startup default-speed job has no readiness gating — it
issues the full `apply_manual_speed` command sequence whenever a default
percent is configured, regardless of controller reachability (on failure the
state is merely left unchanged), and issues nothing only when no default is
configured. -/
theorem apply_default_speed_no_gating (s : BotState) (now : ℚ) (ok : Bool)
    (p : ℤ) :
    (apply_default_speed none s now ok).2 = [] ∧
    (apply_default_speed (some p) s now ok).2 = apply_manual_speed p ∧
    (apply_default_speed (some p) s now false).1 = s := by
  cases ok <;> simp [apply_default_speed]

/-- C7 counterexample: after a successful `cmd_set_speed 50` the live policy
is `manual@50`, but a process restart constructs a fresh state whose policy
is `auto` (`manual_speed = none`) — nothing is persisted or loaded, so the
round-trip fails for `manual@50`. -/
theorem restart_loses_manual_policy_cex :
    (cmd_set_speed initBotState 50 1 true).1.manual_speed = some 50 ∧
    (restartState (cmd_set_speed initBotState 50 1 true).1).manual_speed
        = none ∧
    (restartState (cmd_set_speed initBotState 50 1 true).1).manual_speed
        ≠ some 50 := by
  refine ⟨by decide, rfl, by decide⟩

/-- C7 amended: the policy is held only in memory; a restart always resumes
with the `auto` policy (`manual_speed = none`) regardless of the prior
state, so the save/restart/load round-trip holds only for `auto`. -/
theorem restart_resumes_auto (s : BotState) :
    restartState s = initBotState ∧ (restartState s).manual_speed = none :=
  ⟨rfl, rfl⟩

/-- C4: a degraded episode — starting from a healthy manual policy
(`manual@p`, last successful push at `t0`), a first failing re-assertion at
`t1`, further failing re-assertions at the times in `ts`, then a successful
one at `tS` (all past the re-assertion interval).  The full event trace
shows the failure warning exactly on the first failing tick and suppressed
on every later failing tick, exactly one "recovered" notification on the
first success, and the degraded flag cleared at the end; the warned/recovered
counts over the whole episode are both 1. -/
theorem reapply_degraded_episode (interval : ℚ) (p : ℤ) (t0 t1 tS : ℚ)
    (ts : List ℚ) (rs : List (String × ℚ))
    (h1 : interval ≤ t1 - t0) (hts : ∀ t ∈ ts, interval ≤ t - t0)
    (hS : interval ≤ tS - t0) :
    run_reapply interval ⟨some p, some t0, false, rs⟩
        ((t1, false) :: (ts.map (fun t => (t, false)) ++ [(tS, true)])) =
      (⟨some p, some tS, false, rs⟩,
       ⟨true, false, none⟩ ::
         (ts.map (fun _ => (⟨false, false, none⟩ : TickEvents)) ++
          [⟨false, true, none⟩])) ∧
    (run_reapply interval ⟨some p, some t0, false, rs⟩
        ((t1, false) :: (ts.map (fun t => (t, false)) ++ [(tS, true)]))).2.countP
        (fun e => e.warned) = 1 ∧
    (run_reapply interval ⟨some p, some t0, false, rs⟩
        ((t1, false) :: (ts.map (fun t => (t, false)) ++ [(tS, true)]))).2.countP
        (fun e => e.recovered) = 1 := by
  have main : run_reapply interval ⟨some p, some t0, false, rs⟩
      ((t1, false) :: (ts.map (fun t => (t, false)) ++ [(tS, true)])) =
      (⟨some p, some tS, false, rs⟩,
       ⟨true, false, none⟩ ::
         (ts.map (fun _ => (⟨false, false, none⟩ : TickEvents)) ++
          [⟨false, true, none⟩])) := by
    simp [run_reapply, reapply_fail_step interval p t0 t1 false rs h1,
          run_reapply_append, run_reapply_fail_all interval p t0 rs ts hts,
          reapply_success_step interval p t0 tS true rs hS]
  refine ⟨main, ?_, ?_⟩ <;> rw [main] <;>
    simp [List.countP_cons, List.countP_append, List.countP_map, Function.comp]

/-- Witness for C4: interval 120, manual\@50 pushed at time 0, a single
failing tick at 120 and a successful one at 240. -/
theorem reapply_degraded_episode_witness :
    run_reapply 120 ⟨some 50, some 0, false, []⟩
        ((120, false) :: (List.map (fun t => (t, false)) ([] : List ℚ) ++ [(240, true)])) =
      (⟨some 50, some 240, false, []⟩,
       ⟨true, false, none⟩ ::
         (List.map (fun _ => (⟨false, false, none⟩ : TickEvents)) ([] : List ℚ) ++
          [⟨false, true, none⟩])) ∧
    (run_reapply 120 ⟨some 50, some 0, false, []⟩
        ((120, false) :: (List.map (fun t => (t, false)) ([] : List ℚ) ++ [(240, true)]))).2.countP
        (fun e => e.warned) = 1 ∧
    (run_reapply 120 ⟨some 50, some 0, false, []⟩
        ((120, false) :: (List.map (fun t => (t, false)) ([] : List ℚ) ++ [(240, true)]))).2.countP
        (fun e => e.recovered) = 1 :=
  reapply_degraded_episode 120 50 0 120 240 [] [] (by norm_num) (by simp)
    (by norm_num)

/-- C9: on the monitor tick that captures the first successful snapshot after
process start (`last_readings` still empty), the snapshot is only cached —
no fan-change notification is emitted; and whenever a fan-change
notification is emitted, the previous snapshot cache was non-empty and the
notification is exactly the non-empty diff of the two successive
snapshots. -/
theorem monitor_first_snapshot_cached (interval threshold : ℚ) (s : BotState)
    (now : ℚ) (applyOk : Bool) (r e : List (String × ℚ)) :
    (s.last_readings = [] →
      (monitor_fans interval threshold s now applyOk (some r)).1.last_readings = r ∧
      (monitor_fans interval threshold s now applyOk (some r)).2.fan_change = none) ∧
    ((monitor_fans interval threshold s now applyOk (some r)).2.fan_change = some e →
      s.last_readings ≠ [] ∧
      e = diff_readings s.last_readings r threshold ∧ e ≠ []) := by
  obtain ⟨hlr, hfc⟩ := reapply_state_fields interval s now applyOk
  constructor
  · intro h
    have h' : (reapply_manual_speed_if_needed interval s now applyOk).1.last_readings = [] := by
      rw [hlr, h]
    simp [monitor_fans, h', hfc]
  · intro h
    by_cases h0 : s.last_readings = []
    · have h' : (reapply_manual_speed_if_needed interval s now applyOk).1.last_readings = [] := by
        rw [hlr, h0]
      simp [monitor_fans, h', hfc] at h
    · have h' : ¬ (reapply_manual_speed_if_needed interval s now applyOk).1.last_readings = [] := by
        rw [hlr]; exact h0
      simp only [monitor_fans] at h
      rw [if_neg h'] at h
      simp only [hlr] at h
      split at h
      · simp at h
      · rename_i hch
        rw [Option.some_inj] at h
        subst h
        exact ⟨h0, rfl, hch⟩

/-- Witness for C9: from the initial state, the first successful snapshot is
cached without any fan-change notification. -/
theorem monitor_first_snapshot_cached_witness :
    (monitor_fans 120 200 initBotState 0 true
        (some [("FAN1", 3000)])).1.last_readings = [("FAN1", 3000)] ∧
    (monitor_fans 120 200 initBotState 0 true
        (some [("FAN1", 3000)])).2.fan_change = none :=
  (monitor_first_snapshot_cached 120 200 initBotState 0 true
    [("FAN1", 3000)] []).1 rfl

/-- C3: for every pair of snapshots and every threshold, the diff contains
exactly the sensors present in `new` but absent from `old` (at their new
value) and the sensors present in both whose absolute change is at least the
threshold; sensors absent from `new` never appear.  (Keys of `new` are
unique, as for a Python dict.) -/
theorem diff_readings_spec (old new : List (String × ℚ)) (threshold : ℚ)
    (hnd : (new.map Prod.fst).Nodup) (name : String) :
    lookupReading (diff_readings old new threshold) name =
      match lookupReading new name with
      | none => none
      | some v =>
        match lookupReading old name with
        | none => some v
        | some previous =>
          if threshold ≤ |v - previous| then some v else none := by
  have h := diffAux_lookup old threshold name new [] hnd
  rw [diff_readings, h]
  simp only [lookupReading]

/-- Witness for C3 on the spec's own example: an at-threshold change is
reported at its new value. -/
theorem diff_readings_spec_witness :
    lookupReading (diff_readings [("FAN1", 3000)] [("FAN1", 3250)] 200) "FAN1"
      = some 3250 := by
  have h := diff_readings_spec [("FAN1", 3000)] [("FAN1", 3250)] 200 (by simp) "FAN1"
  rw [h]
  norm_num [lookupReading]

/-- C8: `get_fan_readings` (i) fails with the parse error exactly when no
row parses — and in particular (ii) skips any single non-matching row with
no effect on the result — and (iii) when at least one row parses it returns
the dict of parsed name/value pairs, inserted in row order. -/
theorem get_fan_readings_characterization (lines : List String) :
    ((∀ l ∈ lines, parseRow l = none) →
      get_fan_readings lines =
        Except.error "Unable to parse fan readings from ipmitool output") ∧
    (∀ pre post bad, parseRow bad = none → lines = pre ++ bad :: post →
      get_fan_readings lines = get_fan_readings (pre ++ post)) ∧
    ((∃ l ∈ lines, parseRow l ≠ none) →
      get_fan_readings lines =
        Except.ok (buildReadings (lines.filterMap parseRow))) := by
  have hfold : readingsFold [] lines
      = (lines.filterMap parseRow).foldl (fun acc r => insertReading acc r.1 r.2) [] :=
    readingsFold_eq_filterMap lines []
  refine ⟨?_, ?_, ?_⟩
  · intro h
    have hnil : lines.filterMap parseRow = [] := by
      rw [List.filterMap_eq_nil_iff]
      exact h
    simp only [get_fan_readings]
    rw [hfold, hnil]
    rfl
  · intro pre post bad hbad hsplit
    subst hsplit
    have heq : (pre ++ bad :: post).filterMap parseRow
        = (pre ++ post).filterMap parseRow := by
      simp [List.filterMap_append, List.filterMap_cons, hbad]
    simp only [get_fan_readings]
    rw [readingsFold_eq_filterMap _ [], readingsFold_eq_filterMap _ [], heq]
  · intro h
    have hne : lines.filterMap parseRow ≠ [] := by
      intro hcontra
      obtain ⟨l, hl, hpl⟩ := h
      exact hpl (List.filterMap_eq_nil_iff.mp hcontra l hl)
    simp only [get_fan_readings]
    rw [hfold, if_neg (foldl_insertReading_ne_nil _ [] (Or.inr hne))]
    rfl

/-- Witness for C8: a garbage row is skipped without failing, and the one
matching row is returned. -/
theorem get_fan_readings_characterization_witness :
    get_fan_readings ["junk", "FAN1 | 3000 RPM"]
        = get_fan_readings ([] ++ ["FAN1 | 3000 RPM"]) ∧
    get_fan_readings ["junk", "FAN1 | 3000 RPM"]
        = Except.ok (buildReadings
            ((["junk", "FAN1 | 3000 RPM"] : List String).filterMap parseRow)) :=
  ⟨(get_fan_readings_characterization ["junk", "FAN1 | 3000 RPM"]).2.1
      [] ["FAN1 | 3000 RPM"] "junk" (by decide) rfl,
   (get_fan_readings_characterization ["junk", "FAN1 | 3000 RPM"]).2.2
      ⟨"FAN1 | 3000 RPM", List.mem_cons_of_mem _ (List.mem_cons_self _ _),
       by decide⟩⟩

end Fanbot
